import Mathlib

/-!
Verification of the imklog kernel-log input module (plugins/imklog/imklog.c)
against its natural-language specification.

Raw kernel lines are NUL-terminated C byte strings; we model the stored
bytes as a `List Nat` and a read past the end of the list as reading the
terminator, i.e. byte 0.  C `int` values are modelled as `Int` (the parse
accumulator stays in the defined-behaviour range for every value the
claims are about).
-/

namespace Imklog

/-- Return codes of the rsyslog runtime reachable along the imklog paths
embedded here: `RS_RET_OK`, `RS_RET_INVALID_PRI`, `RS_RET_MISSING_CNFPARAMS`
and a hard submit failure reported by the external queue. -/
inductive RsRet where
  | ok
  | invalidPri
  | missingCnfParams
  | submitFailed
deriving DecidableEq

/-- Reading byte `i` of a NUL-terminated C string whose stored content is
`s`: an index past the content reads the terminator, i.e. 0. -/
def getByte : List Nat → Nat → Nat
  | [], _ => 0
  | c :: _, 0 => c
  | _ :: t, n + 1 => getByte t n

/-- C `isdigit` on a byte (ASCII digits 48..57). -/
def isdigit (c : Nat) : Bool := 48 ≤ c && c ≤ 57

/-- The digit loop of `parsePRI` (imklog.c:180-183): starting from
accumulator `acc`, consume the leading ASCII digits, returning the
accumulated value together with the bytes that remain. -/
def parseDigits : Int → List Nat → Int × List Nat
  | acc, [] => (acc, [])
  | acc, c :: t =>
    if isdigit c then parseDigits (acc * 10 + ((c : Int) - 48)) t else (acc, c :: t)

/-- Number of leading ASCII digits of a byte list. -/
def digitRun : List Nat → Nat
  | [] => 0
  | c :: t => if isdigit c then digitRun t + 1 else 0

/-- Decimal value of a digit byte string, exactly as the parse loop
accumulates it. -/
def decVal (ds : List Nat) : Int :=
  ds.foldl (fun a c => a * 10 + ((c : Int) - 48)) 0

/-- The tail of `parsePRI` after the digit loop (imklog.c:185-190): the
first component is the digit loop's result, `orig`/`p` are the caller's
`*ppSz` and `*piPri`, returned unchanged on the failure path. -/
def priTail : Int × List Nat → List Nat → Int → RsRet × List Nat × Int
  | (i, c :: rest), orig, p =>
    if c = 62 then (RsRet.ok, rest, i) else (RsRet.invalidPri, orig, p)
  | (_, []), orig, p => (RsRet.invalidPri, orig, p)

/-- imklog.c:164-194, `parsePRI(uchar **ppSz, int *piPri)`.  The state the
caller sees is the pair `(*ppSz, *piPri)`; it is passed and returned
explicitly, so the result is `(iRet, *ppSz, *piPri)` as left by the call.
The C function writes through the two pointers only on the success path
(imklog.c:189-190), hence every failure branch returns the input pair. -/
def parsePRI (ppSz : List Nat) (piPri : Int) : RsRet × List Nat × Int :=
  match ppSz with
  | [] => (RsRet.invalidPri, [], piPri)
  | c0 :: t =>
    if c0 = 60 ∧ isdigit (getByte t 0) then
      priTail (parseDigits 0 t) (c0 :: t) piPri
    else (RsRet.invalidPri, c0 :: t, piPri)

theorem parseDigits_append (ds : List Nat) (c : Nat) (t : List Nat)
    (hds : ∀ x ∈ ds, isdigit x) (hc : isdigit c = false) :
    ∀ acc : Int, parseDigits acc (ds ++ c :: t) =
      (ds.foldl (fun a x => a * 10 + ((x : Int) - 48)) acc, c :: t) := by
  induction ds with
  | nil =>
    intro acc
    simp [parseDigits, hc]
  | cons d ds ih =>
    intro acc
    have hd : isdigit d := hds d (by simp)
    have ih2 := ih (fun x hx => hds x (by simp [hx]))
    simp only [List.cons_append, parseDigits, hd, if_true, List.foldl_cons]
    exact ih2 _

theorem parseDigits_snd (t : List Nat) :
    ∀ acc : Int, (parseDigits acc t).2 = t.drop (digitRun t) := by
  induction t with
  | nil => intro acc; rfl
  | cons c t ih =>
    intro acc
    by_cases h : isdigit c
    · simp [parseDigits, digitRun, h, ih]
    · simp [parseDigits, digitRun, h]

theorem parseDigits_nonneg (t : List Nat) :
    ∀ acc : Int, 0 ≤ acc → 0 ≤ (parseDigits acc t).1 := by
  induction t with
  | nil => intro acc h; exact h
  | cons c t ih =>
    intro acc h
    by_cases hc : isdigit c
    · have h48 : (48 : Int) ≤ (c : Int) := by
        have := (Bool.and_eq_true _ _).mp hc |>.1
        exact_mod_cast Nat.le_of_ble_eq_true (by simpa using this)
      simp only [parseDigits, hc, if_true]
      apply ih
      nlinarith
    · simpa [parseDigits, hc] using h

theorem getByte_drop (t : List Nat) : ∀ n, getByte (t.drop n) 0 = getByte t n := by
  induction t with
  | nil => intro n; cases n <;> rfl
  | cons c t ih =>
    intro n
    cases n with
    | zero => rfl
    | succ n => simpa using ih n

/-- C3: for every input of the form `<N>rest` with `N` one or more decimal
digits (leading zeros, any length), `parsePRI` succeeds, stores the decimal
value of `N` in `*piPri`, and leaves `*ppSz` at `rest`, i.e. just past the
closing angle bracket. -/
theorem parsePRI_digits_ok (ds rest : List Nat) (p0 : Int)
    (hne : ds ≠ []) (hds : ∀ x ∈ ds, isdigit x) :
    parsePRI (60 :: ds ++ 62 :: rest) p0 = (RsRet.ok, rest, decVal ds) := by
  cases ds with
  | nil => exact absurd rfl hne
  | cons d ds =>
    have hd : isdigit d := hds d (by simp)
    have h62 : isdigit 62 = false := by decide
    have hpd := parseDigits_append (d :: ds) 62 rest hds h62 0
    simp only [List.cons_append] at hpd
    simp only [parsePRI, List.cons_append]
    split
    · rw [hpd]
      simp [priTail, decVal]
    · next hneg =>
      exact absurd ⟨by trivial, by simpa [getByte] using hd⟩ hneg

/-- The failure condition of `parsePRI` as the claim states it: first byte
not `<`, or the byte after `<` not a digit, or the byte after the digit run
not `>`. -/
def priFailCond (s : List Nat) : Prop :=
  getByte s 0 ≠ 60 ∨ ¬ isdigit (getByte s 1) ∨
    getByte s (1 + digitRun (s.drop 1)) ≠ 62

instance (s : List Nat) : Decidable (priFailCond s) := by
  unfold priFailCond; infer_instance

theorem priFailCond_cons (c0 : Nat) (t : List Nat) :
    priFailCond (c0 :: t) ↔
      (c0 ≠ 60 ∨ ¬ isdigit (getByte t 0) ∨ getByte t (digitRun t) ≠ 62) := by
  unfold priFailCond
  have h3 : (c0 :: t).drop 1 = t := rfl
  rw [h3]
  have h1 : getByte (c0 :: t) 0 = c0 := rfl
  have h2 : getByte (c0 :: t) 1 = getByte t 0 := rfl
  have h4 : getByte (c0 :: t) (1 + digitRun t) = getByte t (digitRun t) := by
    rw [Nat.add_comm]; rfl
  rw [h1, h2, h4]

theorem parsePRI_ok_of_not_cond (s : List Nat) (p0 : Int)
    (h : ¬ priFailCond s) : (parsePRI s p0).1 = RsRet.ok := by
  cases s with
  | nil => exact absurd (Or.inl (by decide)) h
  | cons c0 t =>
    rw [priFailCond_cons] at h
    push_neg at h
    obtain ⟨hc0, hdig, hgt⟩ := h
    rcases hpd : parseDigits 0 t with ⟨i, r⟩
    have hr : r = t.drop (digitRun t) := by
      have := parseDigits_snd t 0
      rw [hpd] at this
      exact this
    have hafter : getByte t (digitRun t) = getByte r 0 := by
      rw [hr, getByte_drop]
    cases r with
    | nil =>
      have h0 : getByte t (digitRun t) = 0 := hafter
      rw [hgt] at h0
      exact absurd h0 (by decide)
    | cons c r2 =>
      have hc : c = 62 := by
        have h5 : getByte t (digitRun t) = c := hafter
        rw [h5] at hgt
        exact hgt
      simp [parsePRI, hc0, hdig, hpd, priTail, hc]

theorem parsePRI_fail_of_cond (s : List Nat) (p0 : Int)
    (h : priFailCond s) : (parsePRI s p0).1 = RsRet.invalidPri := by
  cases s with
  | nil => rfl
  | cons c0 t =>
    by_cases hg : c0 = 60 ∧ isdigit (getByte t 0)
    · rw [priFailCond_cons] at h
      rcases h with h1 | h2 | h3
      · exact absurd hg.1 h1
      · exact absurd hg.2 h2
      · rcases hpd : parseDigits 0 t with ⟨i, r⟩
        have hr : r = t.drop (digitRun t) := by
          have := parseDigits_snd t 0
          rw [hpd] at this
          exact this
        have hafter : getByte t (digitRun t) = getByte r 0 := by
          rw [hr, getByte_drop]
        cases r with
        | nil => simp [parsePRI, hg.1, hg.2, hpd, priTail]
        | cons c r2 =>
          have hc : c ≠ 62 := by
            intro hx
            rw [hafter, hx] at h3
            exact h3 rfl
          simp [parsePRI, hg.1, hg.2, hpd, priTail, hc]
    · simp only [parsePRI, if_neg hg]

/-- C4: `parsePRI` fails with `RS_RET_INVALID_PRI` exactly when the first
byte is not `<`, or the byte after `<` is not a decimal digit, or the byte
following the run of digits is not `>`; in every other case it returns
`RS_RET_OK`. -/
theorem parsePRI_fail_iff (s : List Nat) (p0 : Int) :
    ((parsePRI s p0).1 = RsRet.invalidPri ↔ priFailCond s) ∧
    ((parsePRI s p0).1 = RsRet.ok ↔ ¬ priFailCond s) := by
  constructor
  · constructor
    · intro h
      by_contra hnc
      rw [parsePRI_ok_of_not_cond s p0 hnc] at h
      exact RsRet.noConfusion h
    · exact parsePRI_fail_of_cond s p0
  · constructor
    · intro h hc
      rw [parsePRI_fail_of_cond s p0 hc] at h
      exact RsRet.noConfusion h
    · exact parsePRI_ok_of_not_cond s p0

theorem parsePRI_frame_aux (s : List Nat) (p : Int)
    (h : (parsePRI s p).1 = RsRet.invalidPri) :
    parsePRI s p = (RsRet.invalidPri, s, p) := by
  cases s with
  | nil => rfl
  | cons c0 t =>
    by_cases hg : c0 = 60 ∧ isdigit (getByte t 0)
    · rcases hpd : parseDigits 0 t with ⟨i, r⟩
      cases r with
      | nil => simp [parsePRI, if_pos hg, hpd, priTail]
      | cons c r2 =>
        by_cases hc : c = 62
        · exfalso
          simp [parsePRI, if_pos hg, hpd, priTail, hc] at h
        · simp [parsePRI, if_pos hg, hpd, priTail, hc]
    · simp [parsePRI, if_neg hg]

/-- C9: on every failing call, `parsePRI` leaves both caller-visible
locations exactly as they were: the returned `(*ppSz, *piPri)` pair equals
the input pair whenever the return code is `RS_RET_INVALID_PRI`. -/
theorem parsePRI_fail_frame (s : List Nat) (p : Int)
    (h : (parsePRI s p).1 = RsRet.invalidPri) :
    parsePRI s p = (RsRet.invalidPri, s, p) :=
  parsePRI_frame_aux s p h

/-- Witness for C3 at `<08>x`: leading zero, value 8, cursor at `x`. -/
theorem parsePRI_digits_ok_witness :
    parsePRI [60, 48, 56, 62, 120] 7 = (RsRet.ok, [120], 8) := by
  have := parsePRI_digits_ok [48, 56] [120] 7 (by decide) (by decide)
  simpa [decVal] using this

/-- Witness for C9 at the failing input `<5x` (no closing bracket). -/
theorem parsePRI_fail_frame_witness :
    parsePRI [60, 53, 120] 3 = (RsRet.invalidPri, [60, 53, 120], 3) :=
  parsePRI_fail_frame [60, 53, 120] 3 (by decide)

/-- `LOG_FAC` of sys/syslog.h: `((p) & LOG_FACMASK) >> 3` with
`LOG_FACMASK = 0x03f8`; on `Int` the mask of the low bits equals `emod`,
which Lean's `%` on `Int` is. -/
def LOG_FAC (p : Int) : Int := (p % 1024) / 8

/-- `LOG_PRI` of sys/syslog.h: `(p) & LOG_PRIMASK` with `LOG_PRIMASK = 7`. -/
def LOG_PRI (p : Int) : Int := p % 8

/-- `LOG_KERN` of sys/syslog.h: facility 0. -/
def LOG_KERN : Int := 0

/-- imklog.c:239-243, the primary-PRI fallback of `Syslog`: parse from the
line start; since `parsePRI` leaves `(*ppSz, *piPri)` untouched on failure,
a failed parse keeps the caller-supplied default priority and the whole
line.  (The branch taken when `parsePRI` returns a code other than
`RS_RET_OK`/`RS_RET_INVALID_PRI` is unreachable, as `parsePRI` produces no
other code.) -/
def resolvePriPrimary (priority : Int) (pMsg : List Nat) : Int × List Nat :=
  match parsePRI pMsg priority with
  | (_, pMsg2, priority2) => (priority2, pMsg2)

/-- imklog.c:222-244, the priority resolution of `Syslog`: the local `pri`
starts at -1; bytes 3 (and 4, after a space at 3) are inspected for a
secondary PRI, which is adopted only when it parses and lies in `[8,192]`.
A parse that succeeded out of range still sets `pri`, so the primary
fallback runs only when `pri` is still -1.  Result: resolved priority and
effective message start. -/
def resolvePri (priority : Int) (pMsg : List Nat) : Int × List Nat :=
  if getByte pMsg 3 = 60 ∨ (getByte pMsg 3 = 32 ∧ getByte pMsg 4 = 60) then
    match parsePRI (pMsg.drop (if getByte pMsg 3 = 60 then 3 else 4)) (-1) with
    | (ret, pMsgTmp, pri) =>
      if ret = RsRet.ok ∧ 8 ≤ pri ∧ pri ≤ 192 then (pri, pMsgTmp)
      else if pri = -1 then resolvePriPrimary priority pMsg
      else (priority, pMsg)
  else resolvePriPrimary priority pMsg

/-- imklog.c:220-254, `Syslog(priority, pMsg, tp)`.  `permitNonKernel` is
the value of the legacy global `cs.bPermitNonKernel` that line 247
consults; `submitRet` is the verdict the external queue gives `enqMsg` for
this record.  The result is the module return code together with the
record handed to `enqMsg` — payload, facility, severity — or `none` when
the line is silently dropped by the facility filter. -/
def Syslog (submitRet : RsRet) (permitNonKernel : Int) (priority : Int)
    (pMsg : List Nat) : RsRet × Option (List Nat × Int × Int) :=
  if permitNonKernel = 0 ∧ LOG_FAC (resolvePri priority pMsg).1 ≠ LOG_KERN then
    (RsRet.ok, none)
  else
    (submitRet, some ((resolvePri priority pMsg).2,
      LOG_FAC (resolvePri priority pMsg).1, LOG_PRI (resolvePri priority pMsg).1))

/-- C1: whenever byte 3 is `<` (or byte 3 is a space and byte 4 is `<`),
the secondary parse succeeds with value `m`, and `8 ≤ m ≤ 192`, the
resolved priority is `m` and the payload handed to record construction is
exactly what follows the inner PRI — both the outer and the inner PRI are
excluded. -/
theorem syslog_dual_pri (pMsg : List Nat) (d m : Int) (rest : List Nat) (sub : RsRet)
    (hguard : getByte pMsg 3 = 60 ∨ (getByte pMsg 3 = 32 ∧ getByte pMsg 4 = 60))
    (hparse : parsePRI (pMsg.drop (if getByte pMsg 3 = 60 then 3 else 4)) (-1) =
      (RsRet.ok, rest, m))
    (h8 : 8 ≤ m) (h192 : m ≤ 192) :
    resolvePri d pMsg = (m, rest) ∧
    Syslog sub 1 d pMsg = (sub, some (rest, LOG_FAC m, LOG_PRI m)) := by
  have hres : resolvePri d pMsg = (m, rest) := by
    unfold resolvePri
    rw [if_pos hguard, hparse]
    simp [h8, h192]
  refine ⟨hres, ?_⟩
  unfold Syslog
  rw [hres]
  have hcond : ¬ ((1 : Int) = 0 ∧ LOG_FAC (m, rest).1 ≠ LOG_KERN) := by
    intro hbad
    exact absurd hbad.1 (by norm_num)
  rw [if_neg hcond]

/-- Witness for C1 at `<1><13>a` with default priority 0: the inner PRI 13
wins and the payload is `a`. -/
theorem syslog_dual_pri_witness :
    resolvePri 0 [60, 49, 62, 60, 49, 51, 62, 97] = (13, [97]) ∧
    Syslog RsRet.ok 1 0 [60, 49, 62, 60, 49, 51, 62, 97] =
      (RsRet.ok, some ([97], LOG_FAC 13, LOG_PRI 13)) :=
  syslog_dual_pri [60, 49, 62, 60, 49, 51, 62, 97] 0 13 [97] RsRet.ok
    (by decide) (by decide) (by decide) (by decide)

theorem parsePRI_ok_nonneg (s : List Nat) (p0 : Int) (ret : RsRet)
    (r : List Nat) (v : Int) (h : parsePRI s p0 = (ret, r, v))
    (hok : ret = RsRet.ok) : 0 ≤ v := by
  cases s with
  | nil =>
    rw [hok] at h
    simp [parsePRI] at h
  | cons c0 t =>
    by_cases hg : c0 = 60 ∧ isdigit (getByte t 0)
    · rcases hpd : parseDigits 0 t with ⟨i, rr⟩
      have hnn : 0 ≤ i := by
        have := parseDigits_nonneg t 0 le_rfl
        rw [hpd] at this
        exact this
      simp only [parsePRI, if_pos hg, hpd] at h
      cases rr with
      | nil =>
        rw [hok] at h
        simp [priTail] at h
      | cons c r2 =>
        by_cases hc : c = 62
        · simp only [priTail, if_pos hc] at h
          have : v = i := by
            have := congrArg (fun x => x.2.2) h
            simpa using this.symm
          rw [this]; exact hnn
        · rw [hok] at h
          simp [priTail, hc] at h
    · rw [hok] at h
      simp [parsePRI, hg] at h

/-- C2 (amended): when the secondary location yields no syntactically
parsable PRI at all — the marker bytes are absent, or `parsePRI` fails
there — `Syslog` falls back to parsing a PRI from the line start, and if
that also fails the caller-supplied default priority is used with the full
original line as payload.  When a PRI does parse at the secondary location
but its value lies outside `[8,192]`, the primary parse is skipped: the
default priority is used and the full line is the payload. -/
theorem syslog_fallback (pMsg : List Nat) (d : Int) :
    (¬ (getByte pMsg 3 = 60 ∨ (getByte pMsg 3 = 32 ∧ getByte pMsg 4 = 60)) →
       resolvePri d pMsg = resolvePriPrimary d pMsg) ∧
    ((parsePRI (pMsg.drop (if getByte pMsg 3 = 60 then 3 else 4)) (-1)).1 =
        RsRet.invalidPri →
       resolvePri d pMsg = resolvePriPrimary d pMsg) ∧
    ((parsePRI pMsg d).1 = RsRet.invalidPri → resolvePriPrimary d pMsg = (d, pMsg)) ∧
    (∀ m : Int, ∀ rest : List Nat,
       parsePRI (pMsg.drop (if getByte pMsg 3 = 60 then 3 else 4)) (-1) =
         (RsRet.ok, rest, m) →
       ¬ (8 ≤ m ∧ m ≤ 192) →
       (getByte pMsg 3 = 60 ∨ (getByte pMsg 3 = 32 ∧ getByte pMsg 4 = 60)) →
       resolvePri d pMsg = (d, pMsg)) := by
  refine ⟨?_, ?_, ?_, ?_⟩
  · intro hng
    unfold resolvePri
    rw [if_neg hng]
  · intro hfail
    unfold resolvePri
    by_cases hguard : getByte pMsg 3 = 60 ∨ (getByte pMsg 3 = 32 ∧ getByte pMsg 4 = 60)
    · rw [if_pos hguard]
      have hframe := parsePRI_frame_aux _ (-1) hfail
      rw [hframe]
      simp
    · rw [if_neg hguard]
  · intro hfail
    unfold resolvePriPrimary
    have hframe := parsePRI_frame_aux _ d hfail
    rw [hframe]
  · intro m rest hparse hout hguard
    have hm : 0 ≤ m := parsePRI_ok_nonneg _ (-1) _ _ _ hparse rfl
    have hm1 : ¬ m = -1 := by omega
    have hcond : ¬ ((RsRet.ok : RsRet) = RsRet.ok ∧ 8 ≤ m ∧ m ≤ 192) :=
      fun hbad => hout hbad.2
    unfold resolvePri
    rw [if_pos hguard, hparse]
    simp only [if_neg hcond, if_neg hm1]
    rw [if_neg (fun hbad => hout (And.right hbad))]

/-- Witness for C2 at two inputs: `abc` (no secondary marker, primary parse
fails: default priority, full line) and `<1><5>x` (secondary parses to 5,
out of range: default priority, full line, primary parse skipped). -/
theorem syslog_fallback_witness :
    resolvePri 14 [97, 98, 99] = (14, [97, 98, 99]) ∧
    resolvePri 14 [60, 49, 62, 60, 53, 62, 120] =
      (14, [60, 49, 62, 60, 53, 62, 120]) := by
  constructor
  · have h1 := (syslog_fallback [97, 98, 99] 14).1 (by decide)
    have h2 := (syslog_fallback [97, 98, 99] 14).2.2.1 (by decide)
    rw [h1, h2]
  · exact (syslog_fallback [60, 49, 62, 60, 53, 62, 120] 14).2.2.2 5 [120]
      (by decide) (by decide) (by decide)

/-- C2 counterexample, refuting the claim as stated: on `<1><5>x` the
secondary location (offset 3) parses to 5, which is outside `[8,192]`, so
by the claim `Syslog` should attempt the primary parse — which succeeds
with priority 1 and cursor `<5>x` — yet the code skips it (the local `pri`
is no longer -1) and uses the default priority 14 with the full line as
payload. -/
theorem syslog_fallback_counterexample :
    getByte [60, 49, 62, 60, 53, 62, 120] 3 = 60 ∧
    parsePRI (List.drop 3 [60, 49, 62, 60, 53, 62, 120]) (-1) =
      (RsRet.ok, [120], 5) ∧
    ¬ (8 ≤ (5 : Int) ∧ (5 : Int) ≤ 192) ∧
    parsePRI [60, 49, 62, 60, 53, 62, 120] 14 =
      (RsRet.ok, [60, 53, 62, 120], 1) ∧
    resolvePri 14 [60, 49, 62, 60, 53, 62, 120] =
      (14, [60, 49, 62, 60, 53, 62, 120]) ∧
    resolvePri 14 [60, 49, 62, 60, 53, 62, 120] ≠ (1, [60, 53, 62, 120]) := by
  decide

/-- C5 would need: if the *effective configuration* has the permit flag
clear and the resolved facility is non-kernel, no record is submitted.  The
code instead consults the legacy global `cs.bPermitNonKernel`
(imklog.c:247); the merged v2 value `loadModConf->bPermitNonKernel` is
written (imklog.c:291,325,350) but never read.  The facility filter itself,
for the flag value actually consulted: flag 0 and non-kernel facility give
a silent drop with `RS_RET_OK`. -/
theorem syslog_facility_filter (sub : RsRet) (d : Int) (pMsg : List Nat)
    (h : LOG_FAC (resolvePri d pMsg).1 ≠ LOG_KERN) :
    Syslog sub 0 d pMsg = (RsRet.ok, none) := by
  unfold Syslog
  rw [if_pos ⟨rfl, h⟩]

/-- Witness for the facility filter: `abc` with default priority 14
(facility 1) and the permit flag clear is dropped silently. -/
theorem syslog_facility_filter_witness :
    Syslog RsRet.ok 0 14 [97, 98, 99] = (RsRet.ok, none) :=
  syslog_facility_filter RsRet.ok 14 [97, 98, 99] (by decide)

/-- imklog.c:229-231 under total `Option` indexing over the raw buffer:
the guard reads byte 3 unconditionally and byte 4 when byte 3 is a space;
`none` marks an out-of-bounds read, `some b` the guard verdict. -/
def dualPriInspect (buf : List Nat) : Option Bool :=
  match buf[3]? with
  | none => none
  | some b3 =>
    if b3 = 60 then some true
    else if b3 = 32 then
      match buf[4]? with
      | none => none
      | some b4 => some (b4 == 60)
    else some false

/-- C10: the dual-PRI inspection reads bytes 3 and (when byte 3 is a space)
4 before any length check, so with `Option` indexing the out-of-bounds
branch is unreachable exactly under the precondition that the supplied
buffer (terminator included) is at least 5 bytes long: every buffer of
length ≥ 5 is inspected in bounds, and for each shorter length some buffer
reaches an out-of-bounds read. -/
theorem dualPriInspect_safety :
    (∀ buf : List Nat, 5 ≤ buf.length → (dualPriInspect buf).isSome = true) ∧
    (∀ n : Nat, n < 5 → ∃ buf : List Nat, buf.length = n ∧ dualPriInspect buf = none) := by
  constructor
  · intro buf h
    have h3 : 3 < buf.length := by omega
    have h4 : 4 < buf.length := by omega
    unfold dualPriInspect
    rw [List.getElem?_eq_getElem h3, List.getElem?_eq_getElem h4]
    by_cases hb3 : buf[3] = 60
    · simp [hb3]
    · by_cases hb3s : buf[3] = 32
      · simp [hb3, hb3s]
      · simp [hb3, hb3s]
  · intro n hn
    interval_cases n
    · exact ⟨[], rfl, rfl⟩
    · exact ⟨[97], rfl, rfl⟩
    · exact ⟨[97, 97], rfl, rfl⟩
    · exact ⟨[97, 97, 97], rfl, rfl⟩
    · exact ⟨[97, 97, 97, 32], rfl, rfl⟩

/-- Witness for C10: the 5-byte buffer `ab <\x00` is inspected in bounds,
and some 4-byte buffer is not. -/
theorem dualPriInspect_safety_witness :
    (dualPriInspect [97, 98, 32, 60, 0]).isSome = true ∧
    ∃ buf : List Nat, buf.length = 4 ∧ dualPriInspect buf = none :=
  ⟨dualPriInspect_safety.1 [97, 98, 32, 60, 0] (by decide),
   dualPriInspect_safety.2 4 (by decide)⟩

/-- The six module configuration fields of imklog: `configSettings_t`
(imklog.c:78-85) and the matching members of `modConfData_t`. -/
structure ConfigSettings where
  bPermitNonKernel : Int
  bParseKernelStamp : Int
  bKeepKernelStamp : Int
  iFacilIntMsg : Int
  pszPath : Option (List Nat)
  console_log_level : Int
deriving DecidableEq

/-- Modelled from the spec: `klogFacilIntMsg()` is implemented by the
platform driver (linux.c / bsd.c), which is not among the sources here; it
supplies the documented default facility for internal messages — the
kernel facility for the stock drivers. -/
def klogFacilIntMsg : Int := 0

/-- imklog.c:108-117 `initConfigSettings`: the documented defaults of the
legacy accumulator. -/
def initConfigSettings : ConfigSettings :=
  { bPermitNonKernel := 0, bParseKernelStamp := 0, bKeepKernelStamp := 0,
    iFacilIntMsg := klogFacilIntMsg, pszPath := none, console_log_level := -1 }

/-- One v2 `module(...)` parameter block (imklog.c:93-98): each recognized
parameter either carries a value or is absent (its `bUsed` flag clear). -/
structure V2Params where
  logpath : Option (List Nat)
  permitnonkernelfacility : Option Int
  consoleloglevel : Option Int
  internalmsgfacility : Option Int
deriving DecidableEq

/-- imklog.c:319-334, the parameter loop of `setModCnf`: every used
parameter overwrites the matching `loadModConf` field. -/
def applyV2 (c : ConfigSettings) (p : V2Params) : ConfigSettings :=
  let c1 := match p.logpath with
    | none => c
    | some w => { c with pszPath := some w }
  let c2 := match p.permitnonkernelfacility with
    | none => c1
    | some v => { c1 with bPermitNonKernel := v }
  let c3 := match p.consoleloglevel with
    | none => c2
    | some v => { c2 with console_log_level := v }
  match p.internalmsgfacility with
  | none => c3
  | some v => { c3 with iFacilIntMsg := v }

/-- The configuration events of one load cycle: the legacy line directives
registered in `modInit` (imklog.c:456-477) and a successfully processed
v2 `module(...)` block (`setModCnf`, imklog.c:303-343). -/
inductive CnfEvent where
  | klogpath (w : List Nat)
  | klogpermitnonkernelfacility (v : Int)
  | klogconsoleloglevel (v : Int)
  | kloginternalmsgfacility (v : Int)
  | klogparsekerneltimestamp (v : Int)
  | klogkeepkerneltimestamp (v : Int)
  | resetconfigvariables
  | moduleParams (p : V2Params)
deriving DecidableEq

/-- The mutable state of one load cycle: the legacy accumulator `cs`, the
in-build `loadModConf`, its `configSetViaV2Method` flag and the legacy
gate `bLegacyCnfModGlobalsPermitted`. -/
structure LoadState where
  cs : ConfigSettings
  modConf : ConfigSettings
  configSetViaV2Method : Bool
  legacyPermitted : Bool
deriving DecidableEq

/-- imklog.c:285-300 `beginCnfLoad`: fresh defaults in both accumulators,
v2 flag clear, legacy module-global directives permitted. -/
def beginCnfLoad : LoadState :=
  { cs := initConfigSettings, modConf := initConfigSettings,
    configSetViaV2Method := false, legacyPermitted := true }

/-- imklog.c:426-437 `resetConfigVariables`: clears the legacy accumulator
— except `console_log_level`, which the C function does not touch. -/
def resetConfigVariables (c : ConfigSettings) : ConfigSettings :=
  { c with bPermitNonKernel := 0, bParseKernelStamp := 0, bKeepKernelStamp := 0,
           pszPath := none, iFacilIntMsg := klogFacilIntMsg }

/-- One configuration event applied to the load state.  The legacy
module-global directives (registered through `regCfSysLineHdlr2` with the
gate, imklog.c:458-475) have no effect once the gate is cleared;
`resetconfigvariables` is registered without the gate (imklog.c:476-477);
a processed v2 block updates `loadModConf`, raises the v2 flag and clears
the gate (imklog.c:336-338). -/
def applyEvent (st : LoadState) (e : CnfEvent) : LoadState :=
  match e with
  | .klogpath w =>
    if st.legacyPermitted then { st with cs := { st.cs with pszPath := some w } } else st
  | .klogpermitnonkernelfacility v =>
    if st.legacyPermitted then { st with cs := { st.cs with bPermitNonKernel := v } } else st
  | .klogconsoleloglevel v =>
    if st.legacyPermitted then { st with cs := { st.cs with console_log_level := v } } else st
  | .kloginternalmsgfacility v =>
    if st.legacyPermitted then { st with cs := { st.cs with iFacilIntMsg := v } } else st
  | .klogparsekerneltimestamp v =>
    if st.legacyPermitted then { st with cs := { st.cs with bParseKernelStamp := v } } else st
  | .klogkeepkerneltimestamp v =>
    if st.legacyPermitted then { st with cs := { st.cs with bKeepKernelStamp := v } } else st
  | .resetconfigvariables => { st with cs := resetConfigVariables st.cs }
  | .moduleParams p =>
    { st with modConf := applyV2 st.modConf p, configSetViaV2Method := true,
              legacyPermitted := false }

/-- imklog.c:346-366 `endCnfLoad`: when no v2 block was seen, the legacy
accumulator is copied into the module conf (a NULL or empty path becomes
NULL); when a v2 block was seen, the accumulated module conf stands as is.
The result is the cycle's effective configuration. -/
def endCnfLoad (st : LoadState) : ConfigSettings :=
  if st.configSetViaV2Method then st.modConf
  else
    { bPermitNonKernel := st.cs.bPermitNonKernel,
      bParseKernelStamp := st.cs.bParseKernelStamp,
      bKeepKernelStamp := st.cs.bKeepKernelStamp,
      iFacilIntMsg := st.cs.iFacilIntMsg,
      console_log_level := st.cs.console_log_level,
      pszPath := match st.cs.pszPath with
        | none => none
        | some w => if w = [] then none else some w }

/-- A whole load cycle: `beginCnfLoad`, the events in order, `endCnfLoad`. -/
def loadCycle (evs : List CnfEvent) : ConfigSettings :=
  endCnfLoad (evs.foldl applyEvent beginCnfLoad)

def isModuleParams : CnfEvent → Bool
  | .moduleParams _ => true
  | _ => false

/-- The v2 parameter blocks among a cycle's events, in order. -/
def v2ParamsOf (evs : List CnfEvent) : List V2Params :=
  evs.filterMap fun e => match e with
    | .moduleParams p => some p
    | _ => none

/-- A v2 block that supplies at least one recognized parameter. -/
def hasUsedParam (p : V2Params) : Bool :=
  p.logpath.isSome || p.permitnonkernelfacility.isSome ||
    p.consoleloglevel.isSome || p.internalmsgfacility.isSome

theorem applyEvent_modConf (st : LoadState) (e : CnfEvent)
    (h : isModuleParams e = false) : (applyEvent st e).modConf = st.modConf := by
  cases e with
  | klogpath w => simp only [applyEvent]; split <;> rfl
  | klogpermitnonkernelfacility v => simp only [applyEvent]; split <;> rfl
  | klogconsoleloglevel v => simp only [applyEvent]; split <;> rfl
  | kloginternalmsgfacility v => simp only [applyEvent]; split <;> rfl
  | klogparsekerneltimestamp v => simp only [applyEvent]; split <;> rfl
  | klogkeepkerneltimestamp v => simp only [applyEvent]; split <;> rfl
  | resetconfigvariables => rfl
  | moduleParams p => simp [isModuleParams] at h

theorem applyEvent_flag (st : LoadState) (e : CnfEvent)
    (h : isModuleParams e = false) :
    (applyEvent st e).configSetViaV2Method = st.configSetViaV2Method := by
  cases e with
  | klogpath w => simp only [applyEvent]; split <;> rfl
  | klogpermitnonkernelfacility v => simp only [applyEvent]; split <;> rfl
  | klogconsoleloglevel v => simp only [applyEvent]; split <;> rfl
  | kloginternalmsgfacility v => simp only [applyEvent]; split <;> rfl
  | klogparsekerneltimestamp v => simp only [applyEvent]; split <;> rfl
  | klogkeepkerneltimestamp v => simp only [applyEvent]; split <;> rfl
  | resetconfigvariables => rfl
  | moduleParams p => simp [isModuleParams] at h

theorem foldl_modConf (evs : List CnfEvent) : ∀ st : LoadState,
    (evs.foldl applyEvent st).modConf = (v2ParamsOf evs).foldl applyV2 st.modConf := by
  induction evs with
  | nil => intro st; rfl
  | cons e evs ih =>
    intro st
    rw [List.foldl_cons, ih]
    cases e with
    | moduleParams p => rfl
    | klogpath w =>
      rw [applyEvent_modConf st (CnfEvent.klogpath w) rfl]
      try rfl
    | klogpermitnonkernelfacility v =>
      rw [applyEvent_modConf st (CnfEvent.klogpermitnonkernelfacility v) rfl]
      try rfl
    | klogconsoleloglevel v =>
      rw [applyEvent_modConf st (CnfEvent.klogconsoleloglevel v) rfl]
      try rfl
    | kloginternalmsgfacility v =>
      rw [applyEvent_modConf st (CnfEvent.kloginternalmsgfacility v) rfl]
      try rfl
    | klogparsekerneltimestamp v =>
      rw [applyEvent_modConf st (CnfEvent.klogparsekerneltimestamp v) rfl]
      try rfl
    | klogkeepkerneltimestamp v =>
      rw [applyEvent_modConf st (CnfEvent.klogkeepkerneltimestamp v) rfl]
      try rfl
    | resetconfigvariables =>
      rw [applyEvent_modConf st CnfEvent.resetconfigvariables rfl]
      try rfl

theorem foldl_flag (evs : List CnfEvent) : ∀ st : LoadState,
    (evs.foldl applyEvent st).configSetViaV2Method =
      (st.configSetViaV2Method || evs.any isModuleParams) := by
  induction evs with
  | nil => intro st; simp
  | cons e evs ih =>
    intro st
    rw [List.foldl_cons, ih, List.any_cons]
    cases e with
    | moduleParams p => simp [applyEvent, isModuleParams]
    | klogpath w =>
      rw [applyEvent_flag st (CnfEvent.klogpath w) rfl]
      simp [isModuleParams]
    | klogpermitnonkernelfacility v =>
      rw [applyEvent_flag st (CnfEvent.klogpermitnonkernelfacility v) rfl]
      simp [isModuleParams]
    | klogconsoleloglevel v =>
      rw [applyEvent_flag st (CnfEvent.klogconsoleloglevel v) rfl]
      simp [isModuleParams]
    | kloginternalmsgfacility v =>
      rw [applyEvent_flag st (CnfEvent.kloginternalmsgfacility v) rfl]
      simp [isModuleParams]
    | klogparsekerneltimestamp v =>
      rw [applyEvent_flag st (CnfEvent.klogparsekerneltimestamp v) rfl]
      simp [isModuleParams]
    | klogkeepkerneltimestamp v =>
      rw [applyEvent_flag st (CnfEvent.klogkeepkerneltimestamp v) rfl]
      simp [isModuleParams]
    | resetconfigvariables =>
      rw [applyEvent_flag st CnfEvent.resetconfigvariables rfl]
      simp [isModuleParams]

theorem v2ParamsOf_filter (evs : List CnfEvent) :
    v2ParamsOf (evs.filter isModuleParams) = v2ParamsOf evs := by
  induction evs with
  | nil => rfl
  | cons e evs ih =>
    cases e with
    | moduleParams p =>
      show p :: v2ParamsOf (evs.filter isModuleParams) = p :: v2ParamsOf evs
      rw [ih]
    | klogpath w => exact ih
    | klogpermitnonkernelfacility v => exact ih
    | klogconsoleloglevel v => exact ih
    | kloginternalmsgfacility v => exact ih
    | klogparsekerneltimestamp v => exact ih
    | klogkeepkerneltimestamp v => exact ih
    | resetconfigvariables => exact ih

theorem mem_v2ParamsOf (evs : List CnfEvent) (p : V2Params) :
    p ∈ v2ParamsOf evs ↔ CnfEvent.moduleParams p ∈ evs := by
  induction evs with
  | nil => simp [v2ParamsOf]
  | cons e evs ih =>
    cases e <;>
      simp [v2ParamsOf, List.filterMap_cons, List.mem_cons, ← ih, v2ParamsOf]

theorem applyV2_bParse (c : ConfigSettings) (p : V2Params) :
    (applyV2 c p).bParseKernelStamp = c.bParseKernelStamp := by
  rcases p with ⟨lp, pf, cl, fa⟩
  cases lp <;> cases pf <;> cases cl <;> cases fa <;> rfl

theorem applyV2_bKeep (c : ConfigSettings) (p : V2Params) :
    (applyV2 c p).bKeepKernelStamp = c.bKeepKernelStamp := by
  rcases p with ⟨lp, pf, cl, fa⟩
  cases lp <;> cases pf <;> cases cl <;> cases fa <;> rfl

theorem applyV2_permit_none (c : ConfigSettings) (p : V2Params)
    (h : p.permitnonkernelfacility = none) :
    (applyV2 c p).bPermitNonKernel = c.bPermitNonKernel := by
  rcases p with ⟨lp, pf, cl, fa⟩
  cases pf with
  | some v => exact Option.noConfusion h
  | none => cases lp <;> cases cl <;> cases fa <;> rfl

theorem applyV2_console_none (c : ConfigSettings) (p : V2Params)
    (h : p.consoleloglevel = none) :
    (applyV2 c p).console_log_level = c.console_log_level := by
  rcases p with ⟨lp, pf, cl, fa⟩
  cases cl with
  | some v => exact Option.noConfusion h
  | none => cases lp <;> cases pf <;> cases fa <;> rfl

theorem applyV2_facil_none (c : ConfigSettings) (p : V2Params)
    (h : p.internalmsgfacility = none) :
    (applyV2 c p).iFacilIntMsg = c.iFacilIntMsg := by
  rcases p with ⟨lp, pf, cl, fa⟩
  cases fa with
  | some v => exact Option.noConfusion h
  | none => cases lp <;> cases pf <;> cases cl <;> rfl

theorem applyV2_path_none (c : ConfigSettings) (p : V2Params)
    (h : p.logpath = none) :
    (applyV2 c p).pszPath = c.pszPath := by
  rcases p with ⟨lp, pf, cl, fa⟩
  cases lp with
  | some v => exact Option.noConfusion h
  | none => cases pf <;> cases cl <;> cases fa <;> rfl

theorem foldl_applyV2_bParse (ps : List V2Params) :
    ∀ c : ConfigSettings, (ps.foldl applyV2 c).bParseKernelStamp = c.bParseKernelStamp := by
  induction ps with
  | nil => intro c; rfl
  | cons p ps ih => intro c; rw [List.foldl_cons, ih, applyV2_bParse]

theorem foldl_applyV2_bKeep (ps : List V2Params) :
    ∀ c : ConfigSettings, (ps.foldl applyV2 c).bKeepKernelStamp = c.bKeepKernelStamp := by
  induction ps with
  | nil => intro c; rfl
  | cons p ps ih => intro c; rw [List.foldl_cons, ih, applyV2_bKeep]

theorem foldl_applyV2_permit (ps : List V2Params) :
    ∀ c : ConfigSettings, (∀ p ∈ ps, p.permitnonkernelfacility = none) →
      (ps.foldl applyV2 c).bPermitNonKernel = c.bPermitNonKernel := by
  induction ps with
  | nil => intro c _; rfl
  | cons p ps ih =>
    intro c h
    rw [List.foldl_cons, ih _ (fun q hq => h q (by simp [hq])),
      applyV2_permit_none c p (h p (by simp))]

theorem foldl_applyV2_console (ps : List V2Params) :
    ∀ c : ConfigSettings, (∀ p ∈ ps, p.consoleloglevel = none) →
      (ps.foldl applyV2 c).console_log_level = c.console_log_level := by
  induction ps with
  | nil => intro c _; rfl
  | cons p ps ih =>
    intro c h
    rw [List.foldl_cons, ih _ (fun q hq => h q (by simp [hq])),
      applyV2_console_none c p (h p (by simp))]

theorem foldl_applyV2_facil (ps : List V2Params) :
    ∀ c : ConfigSettings, (∀ p ∈ ps, p.internalmsgfacility = none) →
      (ps.foldl applyV2 c).iFacilIntMsg = c.iFacilIntMsg := by
  induction ps with
  | nil => intro c _; rfl
  | cons p ps ih =>
    intro c h
    rw [List.foldl_cons, ih _ (fun q hq => h q (by simp [hq])),
      applyV2_facil_none c p (h p (by simp))]

theorem foldl_applyV2_path (ps : List V2Params) :
    ∀ c : ConfigSettings, (∀ p ∈ ps, p.logpath = none) →
      (ps.foldl applyV2 c).pszPath = c.pszPath := by
  induction ps with
  | nil => intro c _; rfl
  | cons p ps ih =>
    intro c h
    rw [List.foldl_cons, ih _ (fun q hq => h q (by simp [hq])),
      applyV2_path_none c p (h p (by simp))]

/-- C6: in a load cycle where at least one recognized v2 block parameter
was supplied, the effective configuration is determined by the v2 events
alone — deleting every legacy directive changes nothing — and every field
no supplied v2 parameter set carries its documented default, never a
legacy value; the two kernel-timestamp fields have no v2 parameter and
are always at their defaults in such a cycle. -/
theorem v2_merge_ignores_legacy (evs : List CnfEvent)
    (h : ∃ p : V2Params, CnfEvent.moduleParams p ∈ evs ∧ hasUsedParam p = true) :
    loadCycle evs = loadCycle (evs.filter isModuleParams) ∧
    (loadCycle evs).bParseKernelStamp = initConfigSettings.bParseKernelStamp ∧
    (loadCycle evs).bKeepKernelStamp = initConfigSettings.bKeepKernelStamp ∧
    ((∀ p : V2Params, CnfEvent.moduleParams p ∈ evs → p.permitnonkernelfacility = none) →
      (loadCycle evs).bPermitNonKernel = initConfigSettings.bPermitNonKernel) ∧
    ((∀ p : V2Params, CnfEvent.moduleParams p ∈ evs → p.consoleloglevel = none) →
      (loadCycle evs).console_log_level = initConfigSettings.console_log_level) ∧
    ((∀ p : V2Params, CnfEvent.moduleParams p ∈ evs → p.internalmsgfacility = none) →
      (loadCycle evs).iFacilIntMsg = initConfigSettings.iFacilIntMsg) ∧
    ((∀ p : V2Params, CnfEvent.moduleParams p ∈ evs → p.logpath = none) →
      (loadCycle evs).pszPath = initConfigSettings.pszPath) := by
  obtain ⟨p0, hp0, hused⟩ := h
  have hany : evs.any isModuleParams = true :=
    List.any_eq_true.mpr ⟨_, hp0, rfl⟩
  have hflag : (evs.foldl applyEvent beginCnfLoad).configSetViaV2Method = true := by
    rw [foldl_flag]
    simp [beginCnfLoad, hany]
  have heff : loadCycle evs = (v2ParamsOf evs).foldl applyV2 initConfigSettings := by
    unfold loadCycle endCnfLoad
    rw [if_pos hflag, foldl_modConf]
    rfl
  have hmemf : CnfEvent.moduleParams p0 ∈ evs.filter isModuleParams :=
    List.mem_filter.mpr ⟨hp0, rfl⟩
  have hanyf : (evs.filter isModuleParams).any isModuleParams = true :=
    List.any_eq_true.mpr ⟨_, hmemf, rfl⟩
  have hflagf : ((evs.filter isModuleParams).foldl applyEvent
      beginCnfLoad).configSetViaV2Method = true := by
    rw [foldl_flag]
    simp [beginCnfLoad, hanyf]
  have hefff : loadCycle (evs.filter isModuleParams) =
      (v2ParamsOf evs).foldl applyV2 initConfigSettings := by
    unfold loadCycle endCnfLoad
    rw [if_pos hflagf, foldl_modConf, v2ParamsOf_filter]
    rfl
  refine ⟨heff.trans hefff.symm, ?_, ?_, ?_, ?_, ?_, ?_⟩
  · rw [heff, foldl_applyV2_bParse]
  · rw [heff, foldl_applyV2_bKeep]
  · intro hnone
    rw [heff]
    exact foldl_applyV2_permit _ _
      (fun q hq => hnone q ((mem_v2ParamsOf evs q).mp hq))
  · intro hnone
    rw [heff]
    exact foldl_applyV2_console _ _
      (fun q hq => hnone q ((mem_v2ParamsOf evs q).mp hq))
  · intro hnone
    rw [heff]
    exact foldl_applyV2_facil _ _
      (fun q hq => hnone q ((mem_v2ParamsOf evs q).mp hq))
  · intro hnone
    rw [heff]
    exact foldl_applyV2_path _ _
      (fun q hq => hnone q ((mem_v2ParamsOf evs q).mp hq))

/-- Witness for C6: a legacy permit directive followed by a v2 block
setting only `consoleloglevel` — the legacy directive has no effect and
the unset permit flag keeps its default. -/
theorem v2_merge_ignores_legacy_witness :
    loadCycle [CnfEvent.klogpermitnonkernelfacility 1,
               CnfEvent.moduleParams ⟨none, none, some 4, none⟩] =
      loadCycle ([CnfEvent.klogpermitnonkernelfacility 1,
                  CnfEvent.moduleParams ⟨none, none, some 4, none⟩].filter
        isModuleParams) ∧
    (loadCycle [CnfEvent.klogpermitnonkernelfacility 1,
                CnfEvent.moduleParams ⟨none, none, some 4, none⟩]).bPermitNonKernel =
      initConfigSettings.bPermitNonKernel := by
  have h := v2_merge_ignores_legacy
    [CnfEvent.klogpermitnonkernelfacility 1,
     CnfEvent.moduleParams ⟨none, none, some 4, none⟩]
    ⟨⟨none, none, some 4, none⟩, by decide, by decide⟩
  refine ⟨h.1, h.2.2.2.1 ?_⟩
  intro p hp
  rcases List.mem_cons.mp hp with h1 | h2
  · exact CnfEvent.noConfusion h1
  · rcases List.mem_cons.mp h2 with h3 | h4
    · injection h3 with hpe
      subst hpe
      rfl
    · cases h4

/-- C7 counterexample: with `klogconsoleloglevel 5` accumulated,
`resetconfigvariables` followed by a legacy load-end leaves the console
log level at 5, not at its documented default -1 — `resetConfigVariables`
(imklog.c:426-437) does not touch `console_log_level`, unlike
`initConfigSettings` (imklog.c:108-117). -/
theorem reset_keeps_console_counterexample :
    (loadCycle [CnfEvent.klogconsoleloglevel 5,
        CnfEvent.resetconfigvariables]).console_log_level = 5 ∧
    initConfigSettings.console_log_level = -1 ∧
    loadCycle [CnfEvent.klogconsoleloglevel 5, CnfEvent.resetconfigvariables] ≠
      initConfigSettings := by
  decide

/-- C7 (amended): in a legacy-mode cycle, `resetconfigvariables` followed
by load-end with no further directives yields the documented default in
every field except `console_log_level`, which keeps the accumulator's
prior value — the reset directive does not clear it. -/
theorem reset_then_end (st : LoadState) (hleg : st.configSetViaV2Method = false) :
    endCnfLoad (applyEvent st CnfEvent.resetconfigvariables) =
      { initConfigSettings with console_log_level := st.cs.console_log_level } := by
  rcases st with ⟨cs0, mc, flag, lp⟩
  cases flag with
  | false => rfl
  | true => exact Bool.noConfusion hleg

/-- Witness for C7 at the pristine load state: reset followed by load-end
gives exactly the documented defaults. -/
theorem reset_then_end_witness :
    endCnfLoad (applyEvent beginCnfLoad CnfEvent.resetconfigvariables) =
      { initConfigSettings with console_log_level := -1 } :=
  reset_then_end beginCnfLoad rfl

/-- C5 fails on the code: the facility filter consults the legacy global
`cs.bPermitNonKernel` (imklog.c:247), not the merged effective
configuration — `loadModConf->bPermitNonKernel` is written
(imklog.c:291,325,350) but never read.  After the legacy directive
`klogpermitnonkernelfacility 1` followed by a v2 block setting only
`consoleloglevel`, the effective configuration carries permit = 0, yet
the non-kernel line `abc` (default priority 14, facility 1) is still
submitted; with the effective value, as the claim expects, it would have
been dropped silently. -/
theorem permit_filter_uses_legacy_global :
    (endCnfLoad ([CnfEvent.klogpermitnonkernelfacility 1,
        CnfEvent.moduleParams ⟨none, none, some 1, none⟩].foldl applyEvent
          beginCnfLoad)).bPermitNonKernel = 0 ∧
    ([CnfEvent.klogpermitnonkernelfacility 1,
        CnfEvent.moduleParams ⟨none, none, some 1, none⟩].foldl applyEvent
          beginCnfLoad).cs.bPermitNonKernel = 1 ∧
    LOG_FAC (resolvePri 14 [97, 98, 99]).1 ≠ LOG_KERN ∧
    Syslog RsRet.ok
      ([CnfEvent.klogpermitnonkernelfacility 1,
        CnfEvent.moduleParams ⟨none, none, some 1, none⟩].foldl applyEvent
          beginCnfLoad).cs.bPermitNonKernel 14 [97, 98, 99] =
      (RsRet.ok, some ([97, 98, 99], 1, 6)) ∧
    Syslog RsRet.ok
      (endCnfLoad ([CnfEvent.klogpermitnonkernelfacility 1,
        CnfEvent.moduleParams ⟨none, none, some 1, none⟩].foldl applyEvent
          beginCnfLoad)).bPermitNonKernel 14 [97, 98, 99] = (RsRet.ok, none) := by
  decide

/-- imklog.c:268-282 `runInput`: while the thread's stop flag is clear,
run one `klogLogKMsg` call under `CHKiRet` — a body return code other
than OK leaves the loop through `finalize_it`.  Each list entry is one
potential iteration (stop flag as sampled at the top of the loop, body
return code); the result is the number of iterations whose body ran. -/
def runInput : List (Bool × RsRet) → Nat
  | [] => 0
  | (stopFlag, r) :: rest =>
    if stopFlag then 0 else 1 + (if r = RsRet.ok then runInput rest else 0)

/-- Modelled from the spec: `klogLogKMsg` is implemented by the platform
driver (linux.c / bsd.c), which is not among the sources here.  It reads
one kernel line and hands it to `Syslog`; per the spec (§4.4, §7, §8) a
submission failure "aborts processing of the current line only; it must
not terminate the ingest loop", so the driver absorbs the per-line error
and reports OK to `runInput`.  The pair is (code returned to `runInput`,
observation of the line's `Syslog` call). -/
def klogLogKMsg (submitRet : RsRet) (permitNonKernel : Int) (priority : Int)
    (pLine : List Nat) : RsRet × (RsRet × Option (List Nat × Int × Int)) :=
  (RsRet.ok, Syslog submitRet permitNonKernel priority pLine)

/-- C8: a `SubmitFailed` verdict on one line aborts only that line —
`Syslog` surfaces it for the current line — while the driver reports OK
to `runInput`, so with the stop flag clear both iterations run: the line
whose submission failed and the next driver line. -/
theorem submit_failure_loop_continues (l1 l2 : List Nat) (perm d : Int) (sub2 : RsRet)
    (hfail : (Syslog RsRet.submitFailed perm d l1).1 = RsRet.submitFailed) :
    runInput [(false, (klogLogKMsg RsRet.submitFailed perm d l1).1),
              (false, (klogLogKMsg sub2 perm d l2).1)] = 2 ∧
    ((klogLogKMsg RsRet.submitFailed perm d l1).2).1 = RsRet.submitFailed :=
  ⟨rfl, hfail⟩

/-- Witness for C8: the first line's submission fails hard, the second
line is still processed. -/
theorem submit_failure_loop_continues_witness :
    runInput [(false, (klogLogKMsg RsRet.submitFailed 1 6 [97]).1),
              (false, (klogLogKMsg RsRet.ok 1 6 [98]).1)] = 2 ∧
    ((klogLogKMsg RsRet.submitFailed 1 6 [97]).2).1 = RsRet.submitFailed :=
  submit_failure_loop_continues [97] [98] 1 6 RsRet.ok (by decide)

end Imklog
